import Mathlib

/-!
A shallow embedding of the query-parameter, request-normalisation and
response-validation layer of the exoplanet catalogue frontend.

The embedding models JavaScript numbers as an inductive type separating
finite values (represented exactly as rationals) from `NaN` and the two
infinities, and models JavaScript strings as Lean strings.  Host-language
primitives (`String.prototype.trim`, `Number(string)`, `Math.floor`,
`Math.max`, …) are embedded directly where the source calls them.
-/

/-- A JavaScript number: a finite value (modelled exactly as a rational,
so host floating-point rounding is idealised away), `NaN`, or an
infinity. -/
inductive JsNum where
  | finite (val : ℚ)
  | nan
  | inf
  | negInf
deriving DecidableEq, Repr

/-- `Number.isFinite`. -/
def JsNum.isFinite : JsNum → Bool
  | .finite _ => true
  | _ => false

/-- The character class removed by `String.prototype.trim` (ECMAScript
WhiteSpace and LineTerminator code points). -/
def jsIsWhite (c : Char) : Bool :=
  let n := c.toNat
  (n == 0x20) || (n == 0x9) || (n == 0xa) || (n == 0xb) || (n == 0xc) || (n == 0xd) ||
  (n == 0xa0) || (n == 0x1680) || (decide (0x2000 ≤ n) && decide (n ≤ 0x200a)) ||
  (n == 0x2028) || (n == 0x2029) || (n == 0x202f) || (n == 0x205f) ||
  (n == 0x3000) || (n == 0xfeff)

/-- Trimming on the character-list representation: drop whitespace from
the front, then from the back (via reversal). -/
def jsTrimList (l : List Char) : List Char :=
  ((l.dropWhile jsIsWhite).reverse.dropWhile jsIsWhite).reverse

/-- `String.prototype.trim`. -/
def jsTrim (s : String) : String :=
  ⟨jsTrimList s.data⟩

/-- `clampInteger` from the planets hooks module:
`Math.max(minimum, Math.floor(value))`. -/
def clampInteger (value minimum : ℚ) : ℚ :=
  max minimum (⌊value⌋ : ℚ)

/-- `toOptionalNumber`: keep a finite number, drop everything else. -/
def toOptionalNumber (value : Option JsNum) : Option JsNum :=
  match value with
  | some (.finite q) => some (.finite q)
  | _ => none

/-- `toOptionalPositiveInt`: floor and clamp a finite number to a
minimum, drop non-finite or missing input. -/
def toOptionalPositiveInt (value : Option JsNum) (minimum : ℚ) : Option JsNum :=
  match value with
  | some (.finite q) => some (.finite (clampInteger q minimum))
  | _ => none

/-- `toOptionalString`: trim, and drop the value when missing or empty
after trimming (the empty string is falsy in JavaScript). -/
def toOptionalString (value : Option String) : Option String :=
  match value with
  | some s => if jsTrim s = "" then none else some (jsTrim s)
  | none => none

/-- The fixed allowed set checked by `isSortField`. -/
def sortFieldNames : List String :=
  ["id", "name", "disc_year", "disc_method", "orbperd", "rade", "masse",
   "st_teff", "st_rad", "st_mass", "created_at"]

/-- `isSortField`: membership in the fixed allowed set. -/
def isSortField (value : String) : Bool :=
  sortFieldNames.contains value

/-- `isSortOrder`: the two literal strings accepted as a sort order. -/
def isSortOrder (value : String) : Bool :=
  value == "asc" || value == "desc"

/-- `PlanetListParams`: the raw filter/sort/pagination object.  Optional
fields are `Option`s; `undefined` is `none`.  Enumerated fields are kept
as strings, mirroring the runtime checks in the source. -/
structure PlanetListParams where
  limit : Option JsNum
  offset : Option JsNum
  name : Option String
  disc_method : Option String
  min_year : Option JsNum
  max_year : Option JsNum
  min_orbperd : Option JsNum
  max_orbperd : Option JsNum
  min_rade : Option JsNum
  max_rade : Option JsNum
  min_masse : Option JsNum
  max_masse : Option JsNum
  min_st_teff : Option JsNum
  max_st_teff : Option JsNum
  min_st_rad : Option JsNum
  max_st_rad : Option JsNum
  min_st_mass : Option JsNum
  max_st_mass : Option JsNum
  include_deleted : Option Bool
  sort_by : Option String
  sort_order : Option String
deriving DecidableEq, Repr

/-- `normaliseListParams`: the request normaliser.  Each field is
assigned in the output object exactly when the corresponding guard in
the source assigns it; an unassigned field is `none`. -/
def normaliseListParams (params : PlanetListParams) : PlanetListParams :=
  { limit := toOptionalPositiveInt params.limit 1
    offset := toOptionalPositiveInt params.offset 0
    name := toOptionalString params.name
    disc_method := toOptionalString params.disc_method
    min_year := toOptionalNumber params.min_year
    max_year := toOptionalNumber params.max_year
    min_orbperd := toOptionalNumber params.min_orbperd
    max_orbperd := toOptionalNumber params.max_orbperd
    min_rade := toOptionalNumber params.min_rade
    max_rade := toOptionalNumber params.max_rade
    min_masse := toOptionalNumber params.min_masse
    max_masse := toOptionalNumber params.max_masse
    min_st_teff := toOptionalNumber params.min_st_teff
    max_st_teff := toOptionalNumber params.max_st_teff
    min_st_rad := toOptionalNumber params.min_st_rad
    max_st_rad := toOptionalNumber params.max_st_rad
    min_st_mass := toOptionalNumber params.min_st_mass
    max_st_mass := toOptionalNumber params.max_st_mass
    include_deleted := if params.include_deleted.getD false then some true else none
    sort_by := match params.sort_by with
      | some s => if isSortField s then some s else none
      | none => none
    sort_order := match params.sort_order with
      | some s => if isSortOrder s then some s else none
      | none => none }

/-- Two raw parameter values that agree on every field except possibly
the two string filters. -/
def agreeExceptStrings (p q : PlanetListParams) : Prop :=
  p.limit = q.limit ∧ p.offset = q.offset ∧
  p.min_year = q.min_year ∧ p.max_year = q.max_year ∧
  p.min_orbperd = q.min_orbperd ∧ p.max_orbperd = q.max_orbperd ∧
  p.min_rade = q.min_rade ∧ p.max_rade = q.max_rade ∧
  p.min_masse = q.min_masse ∧ p.max_masse = q.max_masse ∧
  p.min_st_teff = q.min_st_teff ∧ p.max_st_teff = q.max_st_teff ∧
  p.min_st_rad = q.min_st_rad ∧ p.max_st_rad = q.max_st_rad ∧
  p.min_st_mass = q.min_st_mass ∧ p.max_st_mass = q.max_st_mass ∧
  p.include_deleted = q.include_deleted ∧
  p.sort_by = q.sort_by ∧ p.sort_order = q.sort_order

instance (p q : PlanetListParams) : Decidable (agreeExceptStrings p q) := by
  unfold agreeExceptStrings
  infer_instance

/-- A `PlanetListParams` with every field absent. -/
def emptyListParams : PlanetListParams :=
  ⟨none, none, none, none, none, none, none, none, none, none, none,
   none, none, none, none, none, none, none, none, none, none⟩

/-! ### URL search parameters and pagination (claim C3)

The `Number(string)` host conversion is modelled on the full
StringNumericLiteral grammar: optional sign with a decimal literal
(digits, optional fraction and exponent) or the `Infinity` literal, and
the unsigned `0x`/`0o`/`0b` non-decimal integer literals; every string
outside the grammar converts to `NaN`.  A value at or beyond the IEEE
double overflow threshold `2 ^ 1024 - 2 ^ 970` converts to the
corresponding infinity; finite results are kept exact as rationals
rather than rounded to the nearest double.
-/

/-- Leading decimal digits of a character list, with the rest. -/
def readDigits : List Char → (List ℕ × List Char)
  | [] => ([], [])
  | c :: rest =>
    if c.isDigit then
      let (ds, r) := readDigits rest
      ((c.toNat - 48) :: ds, r)
    else ([], c :: rest)

/-- Value of a big-endian digit list. -/
def natOfDigits (ds : List ℕ) : ℕ :=
  ds.foldl (fun acc d => acc * 10 + d) 0

/-- Exact value of a decimal literal: integer part, fraction digits and
a signed decimal exponent. -/
def decValue (ip fp : List ℕ) (ex : ℤ) : ℚ :=
  ((natOfDigits ip : ℚ) + (natOfDigits fp : ℚ) / (10 : ℚ) ^ fp.length) * (10 : ℚ) ^ ex

/-- Parse an unsigned decimal literal (StrUnsignedDecimalLiteral without
`Infinity`); `none` when the list is not a complete literal. -/
def parseDecimal (l : List Char) : Option ℚ :=
  let ipr := readDigits l
  let dotted : Bool × List ℕ × List Char :=
    match ipr.2 with
    | '.' :: r =>
      let fpr := readDigits r
      (true, fpr.1, fpr.2)
    | _ => (false, [], ipr.2)
  if ipr.1 = [] ∧ dotted.2.1 = [] then none
  else
    match dotted.2.2 with
    | [] => some (decValue ipr.1 dotted.2.1 0)
    | c :: r3 =>
      if c = 'e' ∨ c = 'E' then
        let sgn : ℤ × List Char :=
          match r3 with
          | '+' :: r => (1, r)
          | '-' :: r => (-1, r)
          | r => (1, r)
        let ed := readDigits sgn.2
        if ed.1 = [] ∨ ed.2 ≠ [] then none
        else some (decValue ipr.1 dotted.2.1 (sgn.1 * (natOfDigits ed.1 : ℤ)))
      else none

/-- Value of one digit in radix up to 16 (`0-9`, `a-f`, `A-F`). -/
def digitValue (c : Char) : Option ℕ :=
  if '0' ≤ c ∧ c ≤ '9' then some (c.toNat - 48)
  else if 'a' ≤ c ∧ c ≤ 'f' then some (c.toNat - 87)
  else if 'A' ≤ c ∧ c ≤ 'F' then some (c.toNat - 55)
  else none

/-- Accumulating value of digits in the given radix; `none` on a
character that is not a digit below the radix. -/
def parseRadixAux (radix : ℕ) : List Char → ℕ → Option ℕ
  | [], acc => some acc
  | c :: rest, acc =>
    match digitValue c with
    | some d => if d < radix then parseRadixAux radix rest (acc * radix + d) else none
    | none => none

/-- Parse a complete, non-empty digit string in the given radix
(the digit part of a `0x`/`0o`/`0b` literal). -/
def parseRadix (radix : ℕ) (l : List Char) : Option ℕ :=
  match l with
  | [] => none
  | _ => parseRadixAux radix l 0

/-- The smallest magnitude that rounds to an IEEE double infinity:
`2 ^ 1024 - 2 ^ 970` (the midpoint above the largest finite double). -/
def doubleOverflowThreshold : ℚ :=
  2 ^ 1024 - 2 ^ 970

/-- Overflow of the exact mathematical value to a double: magnitudes at
or beyond the threshold become infinities, everything else stays finite
(and exact in this model). -/
def fitDouble (q : ℚ) : JsNum :=
  if q ≤ -doubleOverflowThreshold then .negInf
  else if doubleOverflowThreshold ≤ q then .inf
  else .finite q

/-- `Number(string)`: trim, empty becomes `0`; an unsigned `0x`/`0o`/`0b`
integer literal in the matching radix; otherwise an optional sign
followed by `Infinity` or a decimal literal; anything else is `NaN`.
Finite results overflow to an infinity past the double range. -/
def jsStrToNumber (s : String) : JsNum :=
  let t := jsTrimList s.data
  if t = [] then .finite 0
  else
    let nonDecimal : Option ℕ :=
      match t with
      | '0' :: c :: _ =>
        if c = 'x' ∨ c = 'X' then some 16
        else if c = 'o' ∨ c = 'O' then some 8
        else if c = 'b' ∨ c = 'B' then some 2
        else none
      | _ => none
    match nonDecimal with
    | some radix =>
      match parseRadix radix (t.drop 2) with
      | some n => fitDouble (n : ℚ)
      | none => .nan
    | none =>
      let signed : ℚ × List Char :=
        match t with
        | '+' :: r => (1, r)
        | '-' :: r => (-1, r)
        | r => (1, r)
      if signed.2 = "Infinity".data then (if signed.1 = 1 then .inf else .negInf)
      else
        match parseDecimal signed.2 with
        | some q => fitDouble (signed.1 * q)
        | none => .nan

/-- `URLSearchParams.get`: the value of the first entry with the given
key, or null (`none`). -/
def uspGet (search : List (String × String)) (key : String) : Option String :=
  (search.find? (fun kv => kv.1 == key)).map (fun kv => kv.2)

/-- `parseNumberParam` from the planets page: a missing or empty (falsy)
raw value is absent; otherwise the `Number` conversion is kept only when
finite. -/
def parseNumberParam (value : Option String) : Option JsNum :=
  match value with
  | none => none
  | some s =>
    if s = "" then none
    else
      match jsStrToNumber s with
      | .finite q => some (.finite q)
      | _ => none

/-- `parseSortField` from the planets page: a null value is replaced by
the empty string for the membership test and the raw value is kept only
when allowed. -/
def parseSortField (value : Option String) : Option String :=
  if isSortField (value.getD "") then value else none

/-- `parseSortOrder` from the planets page. -/
def parseSortOrder (value : Option String) : Option String :=
  if value = some "asc" ∨ value = some "desc" then value else none

/-- `paramsFromSearch`: decode the address-bar query into raw list
parameters.  Note `offset` defaults to `0` here while `limit` stays
absent. -/
def paramsFromSearch (search : List (String × String)) : PlanetListParams :=
  { limit := parseNumberParam (uspGet search "limit")
    offset := some ((parseNumberParam (uspGet search "offset")).getD (.finite 0))
    name := uspGet search "name"
    disc_method := uspGet search "disc_method"
    min_year := parseNumberParam (uspGet search "min_year")
    max_year := parseNumberParam (uspGet search "max_year")
    min_orbperd := parseNumberParam (uspGet search "min_orbperd")
    max_orbperd := parseNumberParam (uspGet search "max_orbperd")
    min_rade := parseNumberParam (uspGet search "min_rade")
    max_rade := parseNumberParam (uspGet search "max_rade")
    min_masse := parseNumberParam (uspGet search "min_masse")
    max_masse := parseNumberParam (uspGet search "max_masse")
    min_st_teff := parseNumberParam (uspGet search "min_st_teff")
    max_st_teff := parseNumberParam (uspGet search "max_st_teff")
    min_st_rad := parseNumberParam (uspGet search "min_st_rad")
    max_st_rad := parseNumberParam (uspGet search "max_st_rad")
    min_st_mass := parseNumberParam (uspGet search "min_st_mass")
    max_st_mass := parseNumberParam (uspGet search "max_st_mass")
    include_deleted := none
    sort_by := parseSortField (uspGet search "sort_by")
    sort_order := parseSortOrder (uspGet search "sort_order") }

/-- JavaScript addition restricted to the cases reachable here. -/
def JsNum.add : JsNum → JsNum → JsNum
  | .finite a, .finite b => .finite (a + b)
  | .nan, _ => .nan
  | _, .nan => .nan
  | .inf, .negInf => .nan
  | .negInf, .inf => .nan
  | .inf, _ => .inf
  | _, .inf => .inf
  | .negInf, _ => .negInf
  | _, .negInf => .negInf

/-- JavaScript `<` (false whenever `NaN` is involved). -/
def JsNum.lt : JsNum → JsNum → Bool
  | .nan, _ => false
  | _, .nan => false
  | .finite a, .finite b => decide (a < b)
  | .negInf, .negInf => false
  | .negInf, _ => true
  | _, .negInf => false
  | .inf, _ => false
  | .finite _, .inf => true

/-- JavaScript division restricted to the cases reachable here (the sign
of a zero dividend is not modelled). -/
def JsNum.div : JsNum → JsNum → JsNum
  | .finite a, .finite b =>
    if b = 0 then (if a = 0 then .nan else if 0 < a then .inf else .negInf)
    else .finite (a / b)
  | .nan, _ => .nan
  | _, .nan => .nan
  | .inf, .inf => .nan
  | .inf, .negInf => .nan
  | .negInf, .inf => .nan
  | .negInf, .negInf => .nan
  | .inf, .finite _ => .inf
  | .negInf, .finite _ => .negInf
  | .finite _, _ => .finite 0

/-- `Math.floor`. -/
def JsNum.floor : JsNum → JsNum
  | .finite q => .finite (⌊q⌋ : ℚ)
  | n => n

/-- The pagination values computed by the planets page from the decoded
list parameters and the response `total`. -/
structure PageControls where
  limit : JsNum
  offset : JsNum
  hasPrevious : Bool
  nextOffset : JsNum
  hasNext : Bool
  page : JsNum
deriving DecidableEq, Repr

/-- The pagination block of `PlanetsPage`: `limit ?? 25`, `offset ?? 0`,
`hasPrevious = offset > 0`, `nextOffset = offset + limit`,
`hasNext = nextOffset < total`, page number `floor(offset / limit) + 1`. -/
def pageControls (listParams : PlanetListParams) (total : JsNum) : PageControls :=
  let limit := listParams.limit.getD (.finite 25)
  let offset := listParams.offset.getD (.finite 0)
  let nextOffset := offset.add limit
  { limit := limit
    offset := offset
    hasPrevious := JsNum.lt (.finite 0) offset
    nextOffset := nextOffset
    hasNext := nextOffset.lt total
    page := (offset.div limit).floor.add (.finite 1) }

/-! ### Discovery dataset parameter normalisation (claim C9) -/

/-- `clampNumber` from the visualisation hooks:
`Math.min(max, Math.max(min, value))`. -/
def clampNumber (value lo hi : ℚ) : ℚ :=
  min hi (max lo value)

/-- `Math.round` on a finite value: `⌊q + 1/2⌋` (half away from zero
towards positive infinity, as in JavaScript). -/
def jsRound (q : ℚ) : ℤ :=
  ⌊q + 1 / 2⌋

/-- `sanitizeBins`: round then clamp to `[5, 200]`; non-finite or missing
input is dropped. -/
def sanitizeBins (bins : Option JsNum) : Option JsNum :=
  match bins with
  | some (.finite q) => some (.finite (clampNumber (jsRound q : ℚ) 5 200))
  | _ => none

/-- `sanitizeSigma`: clamp to `[0, 10]`; non-finite or missing input is
dropped. -/
def sanitizeSigma (sigma : Option JsNum) : Option JsNum :=
  match sigma with
  | some (.finite q) => some (.finite (clampNumber q 0 10))
  | _ => none

/-- `DiscoveryQueryParams`: the `GET /vis/discovery` query. -/
structure DiscoveryQueryParams where
  chart : String
  bins : Option JsNum
  sigma : Option JsNum
deriving DecidableEq, Repr

/-- `normaliseParams` from the visualisation hooks: keep the chart,
sanitise `bins` and `sigma`, omit them when sanitisation drops them.
The normalised object is used as both the query key and the request. -/
def normaliseParams (params : DiscoveryQueryParams) : DiscoveryQueryParams :=
  { chart := params.chart
    bins := sanitizeBins params.bins
    sigma := sanitizeSigma params.sigma }

/-! ### HTTP error shaping (claim C2)

`http` is modelled from the point where a `Response` has been received:
the response is abstracted by its status, status text, `content-type`
header, the outcome of `response.json()` and the text body.  The
network-failure branch (fetch rejection) is outside this model.
-/

/-- A JSON value as produced by `response.json()`. -/
inductive Json where
  | num (q : ℚ)
  | str (s : String)
  | bool (b : Bool)
  | null
  | arr (elems : List Json)
  | obj (fields : List (String × Json))

/-- A received HTTP response, abstracted for the client. -/
structure HttpResponse where
  status : ℕ
  statusText : String
  contentType : Option String
  jsonBody : Except String Json
  textBody : String

/-- The data carried by an `ApiError` thrown by `http`: message, resolved
URL, status and status text when a response was received, and a details
payload (parsed JSON body, or a raw/diagnostic string wrapped as a JSON
string). -/
structure ApiErrorShape where
  message : String
  url : String
  status : Option ℕ
  statusText : Option String
  details : Option Json

/-- `Response.ok`: status in the inclusive range 200–299. -/
def respOk (r : HttpResponse) : Bool :=
  decide (200 ≤ r.status) && decide (r.status ≤ 299)

/-- Substring test, modelling `String.prototype.includes`. -/
def strIncludes (hay needle : String) : Bool :=
  (List.range (hay.data.length + 1)).any
    (fun i => needle.data.isPrefixOf (hay.data.drop i))

/-- The `content-type` check in `http`:
`(response.headers.get('content-type') ?? '').includes('application/json')`. -/
def isJsonResponse (r : HttpResponse) : Bool :=
  strIncludes (r.contentType.getD "") "application/json"

/-- The successful payload of `http`: parsed JSON, raw text for non-JSON
responses, or no payload (`undefined`) for a 204. -/
inductive HttpPayload where
  | json (j : Json)
  | text (s : String)
  | empty

/-- The observable outcome of `http` on a received response: a payload,
a thrown `ApiError`, or a thrown JSON syntax error (a non-2xx JSON body
that fails to parse is folded into the error details instead). -/
inductive HttpOutcome where
  | success (v : HttpPayload)
  | apiError (e : ApiErrorShape)
  | jsonSyntaxError (msg : String)

/-- The response-handling path of `http`: non-ok responses throw a shaped
`ApiError` whose details are the parsed JSON body (or its parse-error
message) for JSON responses and the raw text body otherwise; a 204
returns no payload; otherwise the text or parsed JSON body is returned. -/
def http (url : String) (r : HttpResponse) : HttpOutcome :=
  if respOk r = false then
    let details : Json :=
      if isJsonResponse r then
        match r.jsonBody with
        | .ok j => j
        | .error m => .str m
      else .str r.textBody
    .apiError ⟨"The Exoplanet API returned an error response.", url,
      some r.status, some r.statusText, some details⟩
  else if r.status = 204 then .success .empty
  else if isJsonResponse r = false then .success (.text r.textBody)
  else
    match r.jsonBody with
    | .ok j => .success (.json j)
    | .error m => .jsonSyntaxError m

/-! ### Response validation (claims C6, C7, C10)

The zod schemas are embedded as parse functions on `Json`.  A plain
`z.object` requires a JSON object and checks each declared key; since
the planet schemas use `.passthrough()` and no transform, a successful
parse returns the input object itself.
-/

/-- Property lookup on a JSON object (`none` for non-objects and missing
keys). -/
def jsonLookup (j : Json) (key : String) : Option Json :=
  match j with
  | .obj fields => (fields.find? (fun kv => kv.1 == key)).map (fun kv => kv.2)
  | _ => none

/-- Does a JSON value satisfy `z.number()`? -/
def isNumJson : Json → Bool
  | .num _ => true
  | _ => false

/-- Does a JSON value satisfy `z.string()`? -/
def isStrJson : Json → Bool
  | .str _ => true
  | _ => false

/-- An `optional()` field: absent is fine, present values must satisfy
the base check (null is not allowed). -/
def optionalField (check : Json → Bool) (v : Option Json) : Bool :=
  match v with
  | none => true
  | some j => check j

/-- A `nullable().optional()` field: absent and null are fine. -/
def nullableOptionalField (check : Json → Bool) (v : Option Json) : Bool :=
  match v with
  | none => true
  | some .null => true
  | some j => check j

/-- `PlanetRowSchema`: required numeric `id` and string `name`, the
optional nullable physical fields, optional string timestamps, and
`.passthrough()` for everything else. -/
def validPlanetRow (j : Json) : Bool :=
  (match j with | .obj _ => true | _ => false) &&
  optionalField isNumJson (jsonLookup j "id") && (jsonLookup j "id").isSome &&
  optionalField isStrJson (jsonLookup j "name") && (jsonLookup j "name").isSome &&
  nullableOptionalField isStrJson (jsonLookup j "disc_method") &&
  nullableOptionalField isNumJson (jsonLookup j "disc_year") &&
  nullableOptionalField isNumJson (jsonLookup j "orbperd") &&
  nullableOptionalField isNumJson (jsonLookup j "rade") &&
  nullableOptionalField isNumJson (jsonLookup j "masse") &&
  nullableOptionalField isNumJson (jsonLookup j "st_teff") &&
  nullableOptionalField isNumJson (jsonLookup j "st_rad") &&
  nullableOptionalField isNumJson (jsonLookup j "st_mass") &&
  optionalField isStrJson (jsonLookup j "created_at") &&
  optionalField isStrJson (jsonLookup j "updated_at") &&
  nullableOptionalField isStrJson (jsonLookup j "deleted_at")

/-- `PlanetRowSchema.parse`: a passthrough object schema returns the
input object on success. -/
def parsePlanetRow (j : Json) : Except String Json :=
  if validPlanetRow j then .ok j else .error "invalid planet row"

/-- The envelope checks of `PlanetListResponseSchema` apart from the
items themselves. -/
def validListEnvelope (j : Json) : Bool :=
  optionalField isNumJson (jsonLookup j "total") && (jsonLookup j "total").isSome &&
  optionalField isNumJson (jsonLookup j "limit") && (jsonLookup j "limit").isSome &&
  optionalField isNumJson (jsonLookup j "offset") && (jsonLookup j "offset").isSome &&
  nullableOptionalField isNumJson (jsonLookup j "next_offset") &&
  nullableOptionalField isNumJson (jsonLookup j "prev_offset") &&
  optionalField isStrJson (jsonLookup j "sort_by") &&
  optionalField
    (fun v => match v with
      | .str s => (s == "asc") || (s == "desc")
      | _ => false)
    (jsonLookup j "sort_order")

/-- `PlanetListResponseSchema.parse`: requires an object whose `items`
is an array of valid planet rows and whose envelope fields check;
`.passthrough()` with no transform returns the input object. -/
def parsePlanetListResponse (j : Json) : Except String Json :=
  match jsonLookup j "items" with
  | some (.arr items) =>
    if items.all validPlanetRow && validListEnvelope j then .ok j
    else .error "invalid planet list response"
  | _ => .error "invalid planet list response"

/-- The normalised planet count produced by `PlanetCountSchema`. -/
structure PlanetCount where
  total : ℚ
deriving DecidableEq, Repr

/-- The first branch of `PlanetCountSchema`:
`z.object({ total: z.number().nonnegative() })`. -/
def parseTotalShape (j : Json) : Except String PlanetCount :=
  match jsonLookup j "total" with
  | some (.num q) => if 0 ≤ q then .ok ⟨q⟩ else .error "total must be nonnegative"
  | _ => .error "total missing or not a number"

/-- The second branch of `PlanetCountSchema`:
`z.object({ count: z.number().nonnegative() }).transform(...)`. -/
def parseCountShape (j : Json) : Except String PlanetCount :=
  match jsonLookup j "count" with
  | some (.num q) => if 0 ≤ q then .ok ⟨q⟩ else .error "count must be nonnegative"
  | _ => .error "count missing or not a number"

/-- `PlanetCountSchema.parse` (used by `fetchPlanetCount`): try the
`total` shape, fall back to the `count` shape normalised to `total`. -/
def parsePlanetCount (j : Json) : Except String PlanetCount :=
  match parseTotalShape j with
  | .ok v => .ok v
  | .error _ => parseCountShape j

/-! ### Query encoding (claim C8) -/

/-- `PlanetFiltersFormState`: every field is UI text.  The `sort_by` and
`sort_order` fields are kept as strings, as in the form markup. -/
structure PlanetFiltersFormState where
  name : String
  disc_method : String
  min_year : String
  max_year : String
  min_orbperd : String
  max_orbperd : String
  min_rade : String
  max_rade : String
  min_masse : String
  max_masse : String
  min_st_teff : String
  max_st_teff : String
  min_st_rad : String
  max_st_rad : String
  min_st_mass : String
  max_st_mass : String
  limit : String
  sort_by : String
  sort_order : String
deriving DecidableEq, Repr

/-- `defaultFormState` from the planets page. -/
def defaultFormState : PlanetFiltersFormState :=
  ⟨"", "", "", "", "", "", "", "", "", "", "", "", "", "", "", "", "25",
   "id", "desc"⟩

/-- The `entries` array built inside `createSearchParamsFromForm`. -/
def filterEntries (form : PlanetFiltersFormState) : List (String × String) :=
  [("name", form.name), ("disc_method", form.disc_method),
   ("min_year", form.min_year), ("max_year", form.max_year),
   ("min_orbperd", form.min_orbperd), ("max_orbperd", form.max_orbperd),
   ("min_rade", form.min_rade), ("max_rade", form.max_rade),
   ("min_masse", form.min_masse), ("max_masse", form.max_masse),
   ("min_st_teff", form.min_st_teff), ("max_st_teff", form.max_st_teff),
   ("min_st_rad", form.min_st_rad), ("max_st_rad", form.max_st_rad),
   ("min_st_mass", form.min_st_mass), ("max_st_mass", form.max_st_mass)]

/-- `URLSearchParams.set`: replace the value of the first entry with the
key, deleting any further entries with the same key; append when the key
is absent. -/
def uspSet (l : List (String × String)) (key value : String) :
    List (String × String) :=
  match l with
  | [] => [(key, value)]
  | kv :: rest =>
    if kv.1 = key then (key, value) :: rest.filter (fun e => e.1 ≠ key)
    else kv :: uspSet rest key value

/-- The `entries.forEach` loop: set each filter key whose value is
non-empty after trimming, with the trimmed value. -/
def setFilterEntries (acc : List (String × String))
    (entries : List (String × String)) : List (String × String) :=
  entries.foldl
    (fun acc e => if 0 < (jsTrim e.2).length then uspSet acc e.1 (jsTrim e.2) else acc)
    acc

/-- The `Object.entries(overrides).forEach` loop: every override whose
value is a string is set unconditionally. -/
def applyOverrides (acc : List (String × String))
    (overrides : List (String × Option String)) : List (String × String) :=
  overrides.foldl
    (fun acc kv => match kv.2 with
      | some v => uspSet acc kv.1 v
      | none => acc)
    acc

/-- `createSearchParamsFromForm`: trimmed non-empty filter fields, then
the truthy `limit`/`sort_by`/`sort_order` fields verbatim, then the
overrides, applied last and unconditionally. -/
def createSearchParamsFromForm (form : PlanetFiltersFormState)
    (overrides : List (String × Option String)) : List (String × String) :=
  let next := setFilterEntries [] (filterEntries form)
  let next := if form.limit ≠ "" then uspSet next "limit" form.limit else next
  let next := if form.sort_by ≠ "" then uspSet next "sort_by" form.sort_by else next
  let next := if form.sort_order ≠ "" then uspSet next "sort_order" form.sort_order
    else next
  applyOverrides next overrides

/-- A value passed to `toQueryString` (string, number, boolean or
null/undefined; no other value types are produced by the client). -/
inductive QueryValue where
  | vstr (s : String)
  | vnum (n : JsNum)
  | vbool (b : Bool)
  | vnull
deriving DecidableEq, Repr

/-- `String(number)` for the finite numbers emitted here; exact for
integers, fractions rendered as rationals (never inspected by claims). -/
def jsNumToString (q : ℚ) : String :=
  if q.den = 1 then toString q.num else toString q.num ++ "/" ++ toString q.den

/-- One step of the `flatMap` in `toQueryString`: null and undefined are
dropped, strings are trimmed and dropped when empty, numbers are dropped
unless finite, booleans emit only `true`. -/
def queryEntry (kv : String × QueryValue) : List (String × String) :=
  match kv.2 with
  | .vnull => []
  | .vstr s => if 0 < (jsTrim s).length then [(kv.1, jsTrim s)] else []
  | .vnum n =>
    match n with
    | .finite q => [(kv.1, jsNumToString q)]
    | _ => []
  | .vbool b => if b then [(kv.1, "true")] else []

/-- The entry list serialised by `toQueryString` (the final
`URLSearchParams` percent-encoding of these pairs is not modelled). -/
def toQueryStringEntries (params : List (String × QueryValue)) :
    List (String × String) :=
  (params.map queryEntry).flatten

/-! ### Properties of trimming -/

theorem dropWhile_head_false {p : Char → Bool} {l : List Char} {x : Char} {xs : List Char}
    (h : l.dropWhile p = x :: xs) : p x = false := by
  have hne : l.dropWhile p ≠ [] := by simp [h]
  have := List.head_dropWhile_not p l hne
  rwa [show (l.dropWhile p).head hne = x by simp [h]] at this

theorem dropWhile_twice (p : Char → Bool) (l : List Char) :
    (l.dropWhile p).dropWhile p = l.dropWhile p := by
  cases hd : l.dropWhile p with
  | nil => rfl
  | cons x xs =>
    have hx : p x = false := dropWhile_head_false hd
    simp [List.dropWhile_cons, hx]

theorem dropWhile_eq_self_of_head {p : Char → Bool} {l : List Char}
    (h : ∀ x, l.head? = some x → p x = false) : l.dropWhile p = l := by
  cases l with
  | nil => rfl
  | cons a t => simp [List.dropWhile_cons, h a rfl]

theorem dropWhile_getLast? {p : Char → Bool} {l : List Char}
    (h : l.dropWhile p ≠ []) : (l.dropWhile p).getLast? = l.getLast? := by
  obtain ⟨t, ht⟩ := List.dropWhile_suffix (l := l) p
  conv_rhs => rw [← ht]
  exact (List.getLast?_append_of_ne_nil t h).symm

theorem jsTrimList_idem (l : List Char) : jsTrimList (jsTrimList l) = jsTrimList l := by
  unfold jsTrimList
  set A := l.dropWhile jsIsWhite with hA
  set B := A.reverse.dropWhile jsIsWhite with hB
  have hBfix : B.dropWhile jsIsWhite = B := by rw [hB, dropWhile_twice]
  have hRfix : B.reverse.dropWhile jsIsWhite = B.reverse := by
    apply dropWhile_eq_self_of_head
    intro x hx
    rw [List.head?_reverse] at hx
    have hBne : B ≠ [] := by
      intro hnil
      rw [hnil] at hx
      simp at hx
    have h1 : B.getLast? = A.reverse.getLast? := dropWhile_getLast? (hB ▸ hBne)
    rw [List.getLast?_reverse] at h1
    rw [hx] at h1
    cases hAc : A with
    | nil => rw [hAc] at h1; simp at h1
    | cons a as =>
      rw [hAc] at h1
      simp at h1
      rw [h1]
      exact dropWhile_head_false (hA.symm.trans hAc)
  rw [hRfix, List.reverse_reverse, hBfix]

theorem jsTrim_idem (s : String) : jsTrim (jsTrim s) = jsTrim s := by
  unfold jsTrim
  exact congrArg String.mk (jsTrimList_idem s.data)

/-! ### Idempotence of the request normaliser (claim C1) -/

theorem toOptionalString_idem (v : Option String) :
    toOptionalString (toOptionalString v) = toOptionalString v := by
  cases v with
  | none => rfl
  | some s =>
    by_cases h : jsTrim s = ""
    · simp [toOptionalString, h]
    · simp only [toOptionalString, h, if_false]
      rw [jsTrim_idem]
      simp [h]

theorem toOptionalNumber_idem (v : Option JsNum) :
    toOptionalNumber (toOptionalNumber v) = toOptionalNumber v := by
  cases v with
  | none => rfl
  | some n => cases n <;> rfl

theorem clampInteger_intCast (q : ℚ) (k : ℤ) :
    clampInteger (clampInteger q (k : ℚ)) (k : ℚ) = clampInteger q (k : ℚ) := by
  unfold clampInteger
  rw [show ((k : ℚ) ⊔ (⌊q⌋ : ℚ)) = ((k ⊔ ⌊q⌋ : ℤ) : ℚ) from (Int.cast_max).symm,
    Int.floor_intCast, show ((k : ℚ) ⊔ ((k ⊔ ⌊q⌋ : ℤ) : ℚ)) = ((k ⊔ ⌊q⌋ : ℤ) : ℚ) from by
      rw [← Int.cast_max]
      congr 1
      omega]

theorem toOptionalPositiveInt_idem (v : Option JsNum) (k : ℤ) :
    toOptionalPositiveInt (toOptionalPositiveInt v (k : ℚ)) (k : ℚ)
      = toOptionalPositiveInt v (k : ℚ) := by
  cases v with
  | none => rfl
  | some n =>
    cases n with
    | finite q => simp [toOptionalPositiveInt, clampInteger_intCast]
    | nan => rfl
    | inf => rfl
    | negInf => rfl

/-- C1: the request normaliser is idempotent: for every `PlanetListParams`
value `x`, `normaliseListParams (normaliseListParams x) = normaliseListParams x`. -/
theorem normaliseListParams_idem (x : PlanetListParams) :
    normaliseListParams (normaliseListParams x) = normaliseListParams x := by
  have h1 : ((1 : ℚ)) = ((1 : ℤ) : ℚ) := by norm_num
  have h0 : ((0 : ℚ)) = ((0 : ℤ) : ℚ) := by norm_num
  unfold normaliseListParams
  simp only [PlanetListParams.mk.injEq]
  refine ⟨?_, ?_, ?_, ?_, ?_, ?_, ?_, ?_, ?_, ?_, ?_, ?_, ?_, ?_, ?_, ?_, ?_, ?_, ?_, ?_, ?_⟩
  · rw [h1]; exact toOptionalPositiveInt_idem x.limit 1
  · rw [h0]; exact toOptionalPositiveInt_idem x.offset 0
  · exact toOptionalString_idem x.name
  · exact toOptionalString_idem x.disc_method
  · exact toOptionalNumber_idem x.min_year
  · exact toOptionalNumber_idem x.max_year
  · exact toOptionalNumber_idem x.min_orbperd
  · exact toOptionalNumber_idem x.max_orbperd
  · exact toOptionalNumber_idem x.min_rade
  · exact toOptionalNumber_idem x.max_rade
  · exact toOptionalNumber_idem x.min_masse
  · exact toOptionalNumber_idem x.max_masse
  · exact toOptionalNumber_idem x.min_st_teff
  · exact toOptionalNumber_idem x.max_st_teff
  · exact toOptionalNumber_idem x.min_st_rad
  · exact toOptionalNumber_idem x.max_st_rad
  · exact toOptionalNumber_idem x.min_st_mass
  · exact toOptionalNumber_idem x.max_st_mass
  · cases hd : x.include_deleted.getD false <;> simp [hd]
  · cases hs : x.sort_by with
    | none => rfl
    | some s =>
      by_cases hf : isSortField s
      · simp [hf]
      · simp [hf]
  · cases hs : x.sort_order with
    | none => rfl
    | some s =>
      by_cases hf : isSortOrder s
      · simp [hf]
      · simp [hf]

/-! ### Clamping of limit and offset (claim C4) -/

/-- C4: for a finite `limit` the normaliser outputs `max(1, floor(limit))`,
for a finite `offset` it outputs `max(0, floor(offset))`, and a missing or
non-finite `limit`/`offset` is omitted from the normalised request. -/
theorem normaliseListParams_limit_offset (p : PlanetListParams) :
    ((normaliseListParams p).limit = match p.limit with
      | some (.finite q) => some (.finite ((1 : ℚ) ⊔ (⌊q⌋ : ℚ)))
      | _ => none) ∧
    ((normaliseListParams p).offset = match p.offset with
      | some (.finite q) => some (.finite ((0 : ℚ) ⊔ (⌊q⌋ : ℚ)))
      | _ => none) := by
  constructor
  · show toOptionalPositiveInt p.limit 1 = _
    cases hv : p.limit with
    | none => rfl
    | some n => cases n <;> rfl
  · show toOptionalPositiveInt p.offset 0 = _
    cases hv : p.offset with
    | none => rfl
    | some n => cases n <;> rfl

/-! ### Whitespace-insensitivity of the normaliser (claim C5) -/

theorem toOptionalString_eq_of_trim_eq {u v : Option String}
    (h : u.map jsTrim = v.map jsTrim) : toOptionalString u = toOptionalString v := by
  cases u with
  | none =>
    cases v with
    | none => rfl
    | some s => simp at h
  | some s =>
    cases v with
    | none => simp at h
    | some t =>
      simp at h
      simp [toOptionalString, h]

/-- C5: the normaliser trims `name` and `disc_method` and omits them when
empty after trimming; two parameter values that differ only in leading or
trailing whitespace of their string fields normalise identically (hence
produce the same cache key). -/
theorem normaliseListParams_trim (p q : PlanetListParams)
    (hn : p.name.map jsTrim = q.name.map jsTrim)
    (hm : p.disc_method.map jsTrim = q.disc_method.map jsTrim)
    (hrest : agreeExceptStrings p q) :
    normaliseListParams p = normaliseListParams q ∧
    ((normaliseListParams p).name = match p.name with
      | some s => if jsTrim s = "" then none else some (jsTrim s)
      | none => none) ∧
    ((normaliseListParams p).disc_method = match p.disc_method with
      | some s => if jsTrim s = "" then none else some (jsTrim s)
      | none => none) := by
  obtain ⟨e1, e2, e3, e4, e5, e6, e7, e8, e9, e10, e11, e12, e13, e14, e15, e16, e17,
    e18, e19⟩ := hrest
  refine ⟨?_, ?_, ?_⟩
  · unfold normaliseListParams
    rw [e1, e2, e3, e4, e5, e6, e7, e8, e9, e10, e11, e12, e13, e14, e15, e16, e17,
      e18, e19, toOptionalString_eq_of_trim_eq hn, toOptionalString_eq_of_trim_eq hm]
  · show toOptionalString p.name = _
    cases p.name <;> rfl
  · show toOptionalString p.disc_method = _
    cases p.disc_method <;> rfl

theorem normaliseListParams_trim_witness :
    normaliseListParams { emptyListParams with name := some " Kepler " }
      = normaliseListParams { emptyListParams with name := some "Kepler" } ∧
    (normaliseListParams { emptyListParams with name := some " Kepler " }).name
      = some "Kepler" :=
  ⟨(normaliseListParams_trim _ _ (by decide) (by decide) (by decide)).1, by decide⟩

theorem jsStrToNumber_two_five : jsStrToNumber "25" = .finite 25 := by
  have h : jsStrToNumber "25" = fitDouble (1 * decValue [2, 5] [] 0) := rfl
  have hv : (1 : ℚ) * decValue [2, 5] [] 0 = 25 := by
    rw [decValue]
    norm_num [natOfDigits, List.foldl_cons, List.foldl_nil]
  rw [h, hv, fitDouble, doubleOverflowThreshold]
  norm_num

theorem jsStrToNumber_five_zero : jsStrToNumber "50" = .finite 50 := by
  have h : jsStrToNumber "50" = fitDouble (1 * decValue [5, 0] [] 0) := rfl
  have hv : (1 : ℚ) * decValue [5, 0] [] 0 = 50 := by
    rw [decValue]
    norm_num [natOfDigits, List.foldl_cons, List.foldl_nil]
  rw [h, hv, fitDouble, doubleOverflowThreshold]
  norm_num

theorem pageControls_eval (p : PlanetListParams) (t lq oq : ℚ)
    (hl : p.limit = some (.finite lq)) (ho : p.offset = some (.finite oq))
    (hnz : lq ≠ 0) :
    pageControls p (.finite t) =
      ⟨.finite lq, .finite oq, decide (0 < oq), .finite (oq + lq),
       decide (oq + lq < t), .finite ((⌊oq / lq⌋ : ℚ) + 1)⟩ := by
  unfold pageControls
  rw [hl, ho]
  simp only [Option.getD_some]
  rw [show (JsNum.finite oq).add (.finite lq) = .finite (oq + lq) from rfl,
    show (JsNum.finite oq).div (.finite lq) = .finite (oq / lq) from by
      simp [JsNum.div, hnz]]
  simp [JsNum.lt, JsNum.floor, JsNum.add]

/-- C3: on the planets page, the decoded query `limit=25&offset=50` with a
response `total = 120` yields `hasPrevious = true`, `hasNext = true`
(since `50 + 25 = 75 < 120`) and displayed page `⌊50 / 25⌋ + 1 = 3`; and
whenever `limit` (resp. `offset`) is present in the URL but its `Number`
conversion is not finite, the parameter is treated as absent and the page
defaults (`limit = 25`, `offset = 0`) are used. -/
theorem planetsPage_pagination (search : List (String × String)) (s : String)
    (total : JsNum) :
    ((paramsFromSearch [("limit", "25"), ("offset", "50")]).limit
        = some (.finite 25) ∧
      (paramsFromSearch [("limit", "25"), ("offset", "50")]).offset
        = some (.finite 50) ∧
      pageControls (paramsFromSearch [("limit", "25"), ("offset", "50")])
          (.finite 120)
        = ⟨.finite 25, .finite 50, true, .finite 75, true, .finite 3⟩) ∧
    (uspGet search "limit" = some s → (jsStrToNumber s).isFinite = false →
      (paramsFromSearch search).limit = none ∧
      (pageControls (paramsFromSearch search) total).limit = .finite 25) ∧
    (uspGet search "offset" = some s → (jsStrToNumber s).isFinite = false →
      (paramsFromSearch search).offset = some (.finite 0) ∧
      (pageControls (paramsFromSearch search) total).offset = .finite 0) := by
  have hl : (paramsFromSearch [("limit", "25"), ("offset", "50")]).limit
      = some (.finite 25) := by
    show parseNumberParam (uspGet [("limit", "25"), ("offset", "50")] "limit") = _
    rw [show uspGet [("limit", "25"), ("offset", "50")] "limit" = some "25" from rfl]
    simp [parseNumberParam, jsStrToNumber_two_five]
  have ho : (paramsFromSearch [("limit", "25"), ("offset", "50")]).offset
      = some (.finite 50) := by
    show some ((parseNumberParam
        (uspGet [("limit", "25"), ("offset", "50")] "offset")).getD (.finite 0)) = _
    rw [show uspGet [("limit", "25"), ("offset", "50")] "offset" = some "50" from rfl]
    simp [parseNumberParam, jsStrToNumber_five_zero]
  have habsent : ∀ v : Option String, (∀ x, v = some x → x = s) →
      (jsStrToNumber s).isFinite = false → parseNumberParam v = none := by
    intro v hv hfin
    cases v with
    | none => rfl
    | some x =>
      rw [hv x rfl]
      rw [parseNumberParam]
      by_cases he : s = ""
      · simp [he]
      · simp only [he, if_false]
        cases hn : jsStrToNumber s with
        | finite q => rw [hn] at hfin; simp [JsNum.isFinite] at hfin
        | nan => simp
        | inf => simp
        | negInf => simp
  refine ⟨⟨hl, ho, ?_⟩, ?_, ?_⟩
  · rw [pageControls_eval _ 120 25 50 hl ho (by norm_num)]
    norm_num
  · intro hget hfin
    have hnone : (paramsFromSearch search).limit = none := by
      show parseNumberParam (uspGet search "limit") = _
      exact habsent _ (by intro x hx; rw [hget] at hx; exact (Option.some_inj.mp hx).symm) hfin
    refine ⟨hnone, ?_⟩
    unfold pageControls
    rw [hnone]
    rfl
  · intro hget hfin
    have hnone : parseNumberParam (uspGet search "offset") = none :=
      habsent _ (by intro x hx; rw [hget] at hx; exact (Option.some_inj.mp hx).symm) hfin
    have hoff : (paramsFromSearch search).offset = some (.finite 0) := by
      show some ((parseNumberParam (uspGet search "offset")).getD (.finite 0)) = _
      rw [hnone]
      rfl
    refine ⟨hoff, ?_⟩
    unfold pageControls
    rw [hoff]
    rfl

theorem planetsPage_pagination_witness :
    (paramsFromSearch [("limit", "abc")]).limit = none ∧
    (paramsFromSearch [("offset", "x9")]).offset = some (.finite 0) ∧
    pageControls (paramsFromSearch [("limit", "25"), ("offset", "50")]) (.finite 120)
      = ⟨.finite 25, .finite 50, true, .finite 75, true, .finite 3⟩ :=
  ⟨((planetsPage_pagination [("limit", "abc")] "abc" .nan).2.1 rfl (by decide)).1,
   ((planetsPage_pagination [("offset", "x9")] "x9" .nan).2.2 rfl (by decide)).1,
   (planetsPage_pagination [] "" .nan).1.2.2⟩

/-- C9: a finite `bins` is rounded and clamped into `[5, 200]` and a
finite `sigma` is clamped into `[0, 10]` in the normalised
discovery-dataset parameters; a missing or non-finite `bins` or `sigma`
is omitted. -/
theorem normaliseParams_clamps (p : DiscoveryQueryParams) (q : ℚ) :
    (p.bins = some (.finite q) →
      (normaliseParams p).bins = some (.finite (clampNumber (jsRound q : ℚ) 5 200)) ∧
      (5 : ℚ) ≤ clampNumber (jsRound q : ℚ) 5 200 ∧
      clampNumber (jsRound q : ℚ) 5 200 ≤ 200) ∧
    (p.sigma = some (.finite q) →
      (normaliseParams p).sigma = some (.finite (clampNumber q 0 10)) ∧
      (0 : ℚ) ≤ clampNumber q 0 10 ∧ clampNumber q 0 10 ≤ 10) ∧
    ((∀ r : ℚ, p.bins ≠ some (.finite r)) → (normaliseParams p).bins = none) ∧
    ((∀ r : ℚ, p.sigma ≠ some (.finite r)) → (normaliseParams p).sigma = none) := by
  refine ⟨?_, ?_, ?_, ?_⟩
  · intro hb
    refine ⟨?_, ?_, ?_⟩
    · show sanitizeBins p.bins = _
      rw [hb]
      rfl
    · exact le_min (by norm_num) (le_max_left _ _)
    · exact min_le_left _ _
  · intro hs
    refine ⟨?_, ?_, ?_⟩
    · show sanitizeSigma p.sigma = _
      rw [hs]
      rfl
    · exact le_min (by norm_num) (le_max_left _ _)
    · exact min_le_left _ _
  · intro hb
    show sanitizeBins p.bins = none
    cases hv : p.bins with
    | none => rfl
    | some n =>
      cases n with
      | finite r => exact absurd hv (hb r)
      | nan => rfl
      | inf => rfl
      | negInf => rfl
  · intro hs
    show sanitizeSigma p.sigma = none
    cases hv : p.sigma with
    | none => rfl
    | some n =>
      cases n with
      | finite r => exact absurd hv (hs r)
      | nan => rfl
      | inf => rfl
      | negInf => rfl

theorem normaliseParams_clamps_witness :
    (normaliseParams ⟨"hist", some (.finite 1000), some (.finite (-3))⟩).bins
        = some (.finite 200) ∧
    (normaliseParams ⟨"hist", some (.finite 1000), some (.finite (-3))⟩).sigma
        = some (.finite 0) ∧
    (normaliseParams ⟨"hist", some .nan, none⟩).bins = none ∧
    (normaliseParams ⟨"hist", some .nan, none⟩).sigma = none := by
  have h := normaliseParams_clamps ⟨"hist", some (.finite 1000), some (.finite (-3))⟩ 1000
  have h2 := normaliseParams_clamps ⟨"hist", some (.finite 1000), some (.finite (-3))⟩ (-3)
  have h3 := normaliseParams_clamps ⟨"hist", some .nan, none⟩ 0
  refine ⟨?_, ?_, ?_, ?_⟩
  · rw [(h.1 rfl).1]
    have : clampNumber ((jsRound 1000 : ℤ) : ℚ) 5 200 = 200 := by
      rw [jsRound]
      norm_num [clampNumber]
    rw [this]
  · rw [(h2.2.1 rfl).1]
    have : clampNumber (-3 : ℚ) 0 10 = 0 := by norm_num [clampNumber]
    rw [this]
  · exact h3.2.2.1 (by intro r h; simp at h)
  · exact h3.2.2.2 (by intro r h; simp at h)

/-- C2: for every received response with a non-2xx status, `http` throws
an `ApiError` carrying the fixed message, the resolved URL, the HTTP
status and status text, and a details payload equal to the parsed JSON
body when the response is JSON and to the raw text body otherwise; and a
204 response yields no payload and is a success. -/
theorem http_error_shaping (url : String) (r : HttpResponse) (j : Json) :
    (respOk r = false → isJsonResponse r = true → r.jsonBody = .ok j →
      http url r = .apiError ⟨"The Exoplanet API returned an error response.",
        url, some r.status, some r.statusText, some j⟩) ∧
    (respOk r = false → isJsonResponse r = false →
      http url r = .apiError ⟨"The Exoplanet API returned an error response.",
        url, some r.status, some r.statusText, some (.str r.textBody)⟩) ∧
    (r.status = 204 → http url r = .success .empty) := by
  refine ⟨?_, ?_, ?_⟩
  · intro hok hjson hbody
    rw [http, if_pos (by rw [hok])]
    simp [hjson, hbody]
  · intro hok hjson
    rw [http, if_pos (by rw [hok])]
    simp [hjson]
  · intro h204
    have hok : respOk r = true := by
      rw [respOk, h204]
      decide
    rw [http, if_neg (by rw [hok]; simp), if_pos h204]

theorem http_error_shaping_witness :
    http "https://exoplanet-api-lg16.onrender.com/planets/"
        ⟨404, "Not Found", some "application/json",
          .ok (.obj [("detail", .str "missing")]), ""⟩
      = .apiError ⟨"The Exoplanet API returned an error response.",
          "https://exoplanet-api-lg16.onrender.com/planets/", some 404,
          some "Not Found", some (.obj [("detail", .str "missing")])⟩ ∧
    http "https://exoplanet-api-lg16.onrender.com/planets/1"
        ⟨500, "Internal Server Error", some "text/plain", .error "parse",
          "boom"⟩
      = .apiError ⟨"The Exoplanet API returned an error response.",
          "https://exoplanet-api-lg16.onrender.com/planets/1", some 500,
          some "Internal Server Error", some (.str "boom")⟩ ∧
    http "https://exoplanet-api-lg16.onrender.com/planets/2"
        ⟨204, "No Content", none, .error "empty", ""⟩ = .success .empty :=
  ⟨(http_error_shaping _ _ (.obj [("detail", .str "missing")])).1
      (by decide) (by decide) rfl,
   (http_error_shaping _ _ .null).2.1 (by decide) (by decide),
   (http_error_shaping _ _ .null).2.2 rfl⟩

theorem parseTotalShape_nonneg {j : Json} {r : PlanetCount}
    (h : parseTotalShape j = .ok r) : 0 ≤ r.total := by
  rw [parseTotalShape] at h
  split at h
  · rename_i q heq
    split at h
    · rename_i hq
      cases h
      exact hq
    · cases h
  · cases h

theorem parseCountShape_nonneg {j : Json} {r : PlanetCount}
    (h : parseCountShape j = .ok r) : 0 ≤ r.total := by
  rw [parseCountShape] at h
  split at h
  · rename_i q heq
    split at h
    · rename_i hq
      cases h
      exact hq
    · cases h
  · cases h

/-- C10: the count validator rejects negative numbers in either accepted
shape, and every successfully validated count payload has a nonnegative
total. -/
theorem planetCount_rejects_negative (q : ℚ) (j : Json) (r : PlanetCount) :
    (q < 0 →
      (parsePlanetCount (.obj [("total", .num q)])).isOk = false ∧
      (parsePlanetCount (.obj [("count", .num q)])).isOk = false) ∧
    (parsePlanetCount j = .ok r → 0 ≤ r.total) := by
  constructor
  · intro hq
    have hq' : ¬(0 ≤ q) := not_le.mpr hq
    constructor
    · simp [parsePlanetCount, parseTotalShape, parseCountShape, jsonLookup,
        List.find?, hq', Except.isOk, Except.toBool]
    · simp [parsePlanetCount, parseTotalShape, parseCountShape, jsonLookup,
        List.find?, hq', Except.isOk, Except.toBool]
  · intro h
    rw [parsePlanetCount] at h
    split at h
    · rename_i v hv
      cases h
      exact parseTotalShape_nonneg hv
    · exact parseCountShape_nonneg h

theorem planetCount_rejects_negative_witness :
    (parsePlanetCount (.obj [("total", .num (-5))])).isOk = false ∧
    (parsePlanetCount (.obj [("count", .num (-5))])).isOk = false ∧
    (0 : ℚ) ≤ (PlanetCount.mk 42).total :=
  ⟨((planetCount_rejects_negative (-5) (.obj [("total", .num 42)]) ⟨42⟩).1
      (by norm_num)).1,
   ((planetCount_rejects_negative (-5) (.obj [("total", .num 42)]) ⟨42⟩).1
      (by norm_num)).2,
   (planetCount_rejects_negative (-5) (.obj [("total", .num 42)]) ⟨42⟩).2
      (by simp [parsePlanetCount, parseTotalShape, jsonLookup, List.find?])⟩

/-- C6 as stated is false: `{count: n}` is not mapped to `{total: n}` for
every number `n`, because the schema rejects negative counts.  At
`n = -1` validation fails instead of producing `{total: -1}`. -/
theorem planetCount_negative_count_fails :
    parsePlanetCount (.obj [("count", .num (-1))]) ≠ .ok ⟨-1⟩ := by
  have : (parsePlanetCount (.obj [("count", .num (-1))])).isOk = false := by
    simp [parsePlanetCount, parseTotalShape, parseCountShape, jsonLookup,
      List.find?, show ¬((0:ℚ) ≤ -1) from by norm_num, Except.isOk, Except.toBool]
  intro h
  rw [h] at this
  simp [Except.isOk, Except.toBool] at this

/-- C6 (amended): `{count: 42}` validates to `{total: 42}`, `{total: 42}`
validates to `{total: 42}` unchanged, and for every nonnegative number
`n` a `{count: n}` payload is mapped to `{total: n}`. -/
theorem planetCount_shape_normalisation (q : ℚ) (h : 0 ≤ q) :
    parsePlanetCount (.obj [("count", .num 42)]) = .ok ⟨42⟩ ∧
    parsePlanetCount (.obj [("total", .num 42)]) = .ok ⟨42⟩ ∧
    parsePlanetCount (.obj [("count", .num q)]) = .ok ⟨q⟩ := by
  refine ⟨?_, ?_, ?_⟩
  · simp [parsePlanetCount, parseTotalShape, parseCountShape, jsonLookup,
      List.find?, show (0:ℚ) ≤ 42 from by norm_num]
  · simp [parsePlanetCount, parseTotalShape, jsonLookup, List.find?,
      show (0:ℚ) ≤ 42 from by norm_num]
  · simp [parsePlanetCount, parseTotalShape, parseCountShape, jsonLookup,
      List.find?, h]

theorem planetCount_shape_normalisation_witness :
    parsePlanetCount (.obj [("count", .num 7)]) = .ok ⟨7⟩ :=
  (planetCount_shape_normalisation 7 (by norm_num)).2.2

/-- C7: if any item of the `items` array fails row validation, validation
of the whole list response fails; and a successful validation returns the
input payload with every item valid, so no partially validated item list
is ever produced. -/
theorem listResponse_no_partial :
    (∀ (j : Json) (items : List Json),
      jsonLookup j "items" = some (.arr items) →
      (∃ it ∈ items, validPlanetRow it = false) →
      (parsePlanetListResponse j).isOk = false) ∧
    (∀ (j k : Json), parsePlanetListResponse j = .ok k → k = j ∧
      ∀ items : List Json, jsonLookup j "items" = some (.arr items) →
        ∀ it ∈ items, validPlanetRow it = true) := by
  constructor
  · intro j items hitems hbad
    obtain ⟨it, hmem, hfail⟩ := hbad
    have hall : items.all validPlanetRow = false := by
      by_contra hcon
      have : items.all validPlanetRow = true := by
        cases hv : items.all validPlanetRow with
        | true => rfl
        | false => exact absurd hv hcon
      have := List.all_eq_true.mp this it hmem
      rw [hfail] at this
      exact Bool.false_ne_true this
    rw [parsePlanetListResponse, hitems]
    simp [hall, Except.isOk, Except.toBool]
  · intro j k hok
    rw [parsePlanetListResponse] at hok
    split at hok
    · rename_i items hitems
      split at hok
      · rename_i hcond
        cases hok
        refine ⟨rfl, ?_⟩
        intro items2 hitems2
        rw [hitems] at hitems2
        have : items = items2 := by
          injection hitems2 with h1
          injection h1
        subst this
        exact List.all_eq_true.mp (Bool.and_elim_left hcond) 
      · cases hok
    · cases hok

theorem listResponse_no_partial_witness :
    (parsePlanetListResponse (.obj
      [("items", .arr
          [.obj [("id", .num 1), ("name", .str "Kepler-22b")],
           .obj [("id", .num 2)]]),
       ("total", .num 2), ("limit", .num 25), ("offset", .num 0)])).isOk
      = false :=
  listResponse_no_partial.1 _
    [.obj [("id", .num 1), ("name", .str "Kepler-22b")], .obj [("id", .num 2)]]
    rfl
    ⟨.obj [("id", .num 2)], List.mem_cons_of_mem _ (List.mem_cons_self _ _),
      by decide⟩

theorem uspSet_keys {l : List (String × String)} {key value k : String}
    (h : k ∈ (uspSet l key value).map Prod.fst) :
    k = key ∨ k ∈ l.map Prod.fst := by
  induction l with
  | nil =>
    rw [uspSet] at h
    simp at h
    exact Or.inl h
  | cons kv rest ih =>
    rw [uspSet] at h
    by_cases hk : kv.1 = key
    · rw [if_pos hk, List.map_cons] at h
      rcases List.mem_cons.mp h with h | h
      · exact Or.inl h
      · right
        rw [List.map_cons, List.mem_cons]
        right
        rw [List.mem_map] at h
        obtain ⟨e, hmem, hfst⟩ := h
        exact List.mem_map.mpr ⟨e, List.mem_of_mem_filter hmem, hfst⟩
    · rw [if_neg hk, List.map_cons] at h
      rcases List.mem_cons.mp h with h | h
      · right
        rw [List.map_cons]
        exact List.mem_cons.mpr (Or.inl h)
      · rcases ih h with h2 | h2
        · exact Or.inl h2
        · right
          rw [List.map_cons]
          exact List.mem_cons.mpr (Or.inr h2)

theorem setFilterEntries_keys {es : List (String × String)}
    {acc : List (String × String)} {k : String}
    (h : k ∈ (setFilterEntries acc es).map Prod.fst) :
    k ∈ acc.map Prod.fst ∨ ∃ v, (k, v) ∈ es ∧ 0 < (jsTrim v).length := by
  induction es generalizing acc with
  | nil => exact Or.inl h
  | cons e rest ih =>
    rw [setFilterEntries, List.foldl_cons] at h
    rcases ih (h := h) with h2 | h2
    · by_cases hc : 0 < (jsTrim e.2).length
      · rw [if_pos hc] at h2
        rcases uspSet_keys h2 with h3 | h3
        · exact Or.inr ⟨e.2, by rw [h3]; exact List.mem_cons.mpr (Or.inl rfl), hc⟩
        · exact Or.inl h3
      · rw [if_neg hc] at h2
        exact Or.inl h2
    · obtain ⟨v, hmem, hlen⟩ := h2
      exact Or.inr ⟨v, List.mem_cons_of_mem _ hmem, hlen⟩

theorem applyOverrides_keys {ov : List (String × Option String)}
    {acc : List (String × String)} {k : String}
    (h : k ∈ (applyOverrides acc ov).map Prod.fst) :
    k ∈ acc.map Prod.fst ∨ ∃ v, (k, some v) ∈ ov := by
  induction ov generalizing acc with
  | nil => exact Or.inl h
  | cons o rest ih =>
    rw [applyOverrides, List.foldl_cons] at h
    rcases ih (h := h) with h2 | h2
    · cases ho : o.2 with
      | none =>
        rw [ho] at h2
        exact Or.inl h2
      | some v =>
        rw [ho] at h2
        rcases uspSet_keys h2 with h3 | h3
        · exact Or.inr ⟨v, by rw [h3, ← ho]; exact List.mem_cons.mpr (Or.inl rfl)⟩
        · exact Or.inl h3
    · obtain ⟨v, hmem⟩ := h2
      exact Or.inr ⟨v, List.mem_cons_of_mem _ hmem⟩

theorem keys_of_cond_set {l : List (String × String)} {key value k : String}
    {c : Prop} [Decidable c]
    (h : k ∈ ((if c then uspSet l key value else l).map Prod.fst)) :
    k = key ∨ k ∈ l.map Prod.fst := by
  by_cases hc : c
  · rw [if_pos hc] at h
    exact uspSet_keys h
  · rw [if_neg hc] at h
    exact Or.inr h

/-- C8 holds for the form-derived fields but not for overrides, which the
source sets unconditionally.  Amended: `createSearchParamsFromForm` never
emits a filter field whose form value is empty after trimming unless that
key is overridden, and `toQueryString` never emits a key whose value is a
string that is empty after trimming. -/
theorem queryEncoding_omits_empty (form : PlanetFiltersFormState)
    (overrides : List (String × Option String)) (k : String)
    (params : List (String × QueryValue)) :
    ((∃ v, (k, v) ∈ filterEntries form) →
      (∀ v, (k, v) ∈ filterEntries form → jsTrim v = "") →
      (∀ v, (k, some v) ∉ overrides) →
      k ∉ (createSearchParamsFromForm form overrides).map Prod.fst) ∧
    ((∀ v, (k, v) ∈ params → ∃ s, v = .vstr s ∧ jsTrim s = "") →
      k ∉ (toQueryStringEntries params).map Prod.fst) := by
  constructor
  · intro hfield hempty hnoov hin
    have hknames : k ∈ (filterEntries form).map Prod.fst := by
      obtain ⟨v, hv⟩ := hfield
      exact List.mem_map_of_mem _ hv
    have hkfixed : k ∈ ["name", "disc_method", "min_year", "max_year",
        "min_orbperd", "max_orbperd", "min_rade", "max_rade", "min_masse",
        "max_masse", "min_st_teff", "max_st_teff", "min_st_rad", "max_st_rad",
        "min_st_mass", "max_st_mass"] := by
      rw [show (filterEntries form).map Prod.fst = ["name", "disc_method",
        "min_year", "max_year", "min_orbperd", "max_orbperd", "min_rade",
        "max_rade", "min_masse", "max_masse", "min_st_teff", "max_st_teff",
        "min_st_rad", "max_st_rad", "min_st_mass", "max_st_mass"] from rfl]
        at hknames
      exact hknames
    rw [createSearchParamsFromForm] at hin
    rcases applyOverrides_keys hin with h1 | h1
    · rcases keys_of_cond_set h1 with h2 | h2
      · rw [h2] at hkfixed
        simp at hkfixed
      · rcases keys_of_cond_set h2 with h3 | h3
        · rw [h3] at hkfixed
          simp at hkfixed
        · rcases keys_of_cond_set h3 with h4 | h4
          · rw [h4] at hkfixed
            simp at hkfixed
          · rcases setFilterEntries_keys h4 with h5 | h5
            · simp at h5
            · obtain ⟨v, hmem, hlen⟩ := h5
              rw [hempty v hmem] at hlen
              simp at hlen
    · obtain ⟨v, hmem⟩ := h1
      exact hnoov v hmem
  · intro hempty hin
    induction params with
    | nil => simp [toQueryStringEntries] at hin
    | cons kv rest ih =>
      rw [toQueryStringEntries, List.map_cons, List.flatten_cons,
        List.map_append, List.mem_append] at hin
      rcases hin with hin | hin
      · have hk : k = kv.1 := by
          rcases hv : kv.2 with s | n | b | _
          · simp only [queryEntry, hv] at hin
            by_cases hc : 0 < (jsTrim s).length
            · rw [if_pos hc] at hin
              simp at hin
              exact hin
            · rw [if_neg hc] at hin
              simp at hin
          · simp only [queryEntry, hv] at hin
            cases n with
            | finite q =>
              simp at hin
              exact hin
            | nan => simp at hin
            | inf => simp at hin
            | negInf => simp at hin
          · simp only [queryEntry, hv] at hin
            by_cases hb : b = true
            · rw [hb] at hin
              simp at hin
              exact hin
            · rw [show b = false from by
                cases b
                · rfl
                · exact absurd rfl hb] at hin
              simp at hin
          · simp only [queryEntry, hv] at hin
            simp at hin
        obtain ⟨s, hs, htrim⟩ := hempty kv.2 (by
          rw [hk]
          exact List.mem_cons_self _ _)
        simp only [queryEntry, hs, htrim] at hin
        simp at hin
      · exact ih (fun v hv => hempty v (List.mem_cons_of_mem _ hv)) hin

/-- C8 as stated is false for arbitrary overrides: an override whose
value is the empty string is set unconditionally, so the produced search
parameters contain the key with an empty-after-trim value. -/
theorem createSearchParams_override_empty :
    ("name", "") ∈ createSearchParamsFromForm defaultFormState
      [("name", some "")] := by decide

theorem queryEncoding_omits_empty_witness :
    "name" ∉ (createSearchParamsFromForm defaultFormState []).map Prod.fst ∧
    "name" ∉ (toQueryStringEntries [("name", .vstr "   ")]).map Prod.fst :=
  ⟨(queryEncoding_omits_empty defaultFormState [] "name"
      [("name", .vstr "   ")]).1
      ⟨"", by decide⟩
      (by
        intro v hv
        simp [filterEntries, defaultFormState] at hv
        rw [hv]
        rfl)
      (by
        intro v hv
        simp at hv),
   (queryEncoding_omits_empty defaultFormState [] "name"
      [("name", .vstr "   ")]).2
      (by
        intro v hv
        simp at hv
        exact ⟨"   ", hv, by decide⟩)⟩
